import Mathlib

/-!
Verification of the indicator-scoring and backtesting engine of a stock
dashboard (source files `backtest.py`, `stock_fetcher.py`, `app.py`).

Modelling conventions:
* pandas float columns are modelled with exact rationals; a NaN entry is
  modelled as `none` of an `Option` type.  Comparisons against NaN are
  false in numpy/pandas, which the embeddings reproduce case by case.
* The values produced by the library calls `ta.rsi` (14-period RSI) and
  `ta.supertrend` (direction column) are carried as opaque per-bar inputs
  of a `Bar` (`none` = NaN during warm-up): the properties verified here
  concern only how those values are discretized and consumed downstream.
  Moving averages and the volume oscillator are computed from the bars.
* Rational division by zero is `0` in Lean; the one place the source can
  divide by zero (the volume oscillator) is modelled explicitly with the
  IEEE outcomes (`Osc.nan`, `Osc.pinf`, `Osc.ninf`) instead.
-/

/-- One OHLCV bar as consumed by the scoring pipeline.  `close` and
`volume` are the pandas columns of the same names; `rsi` and `stDir` are
the per-bar values of `ta.rsi(Close, 14)` and of the pandas_ta
SuperTrend direction column (`none` models NaN). -/
structure Bar where
  close : ℚ
  volume : ℚ
  rsi : Option ℚ
  stDir : Option ℚ
deriving DecidableEq

instance : Inhabited Bar := ⟨⟨0, 0, none, none⟩⟩

/-- Value of the `Vol_Osc` column.  `((vol_short - vol_long) / vol_long) * 100`
is float arithmetic in the source, so a zero denominator yields NaN or a
signed infinity rather than raising. -/
inductive Osc where
  | nan
  | pinf
  | ninf
  | fin (q : ℚ)
deriving DecidableEq

instance : Inhabited Osc := ⟨Osc.nan⟩

/-- `vol_osc >= c` as numpy evaluates it (False on NaN, True on +inf). -/
def Osc.geQ : Osc → ℚ → Bool
  | .nan, _ => false
  | .pinf, _ => true
  | .ninf, _ => false
  | .fin q, c => decide (c ≤ q)

/-- `vol_osc <= c` as numpy evaluates it (False on NaN and +inf). -/
def Osc.leQ : Osc → ℚ → Bool
  | .nan, _ => false
  | .pinf, _ => false
  | .ninf, _ => true
  | .fin q, c => decide (q ≤ c)

/-- `vol_osc > c` as numpy evaluates it. -/
def Osc.gtQ : Osc → ℚ → Bool
  | .nan, _ => false
  | .pinf, _ => true
  | .ninf, _ => false
  | .fin q, c => decide (c < q)

/-- `ta.sma(xs, length := n)` at row `i`: the unweighted mean of the
trailing `n` values ending at `i`, NaN (`none`) for the first `n - 1`
rows.  Matches `backtest.py` lines 36-37/51-52 and
`stock_fetcher.py` lines 73-74/102-103. -/
def sma (xs : List ℚ) (n : ℕ) (i : ℕ) : Option ℚ :=
  if i + 1 < n then none
  else some ((((List.range n).map fun k => xs.getD (i - k) 0).sum) / (n : ℚ))

/-- `((vol_short - vol_long) / vol_long) * 100` with float semantics:
NaN if either average is NaN or on 0/0; a signed infinity on x/0, x ≠ 0
(`backtest.py` line 53, `stock_fetcher.py` line 104). -/
def oscOf : Option ℚ → Option ℚ → Osc
  | some s, some l =>
      if l = 0 then
        (if 0 < s then Osc.pinf else if s < 0 then Osc.ninf else Osc.nan)
      else Osc.fin ((s - l) / l * 100)
  | _, _ => Osc.nan

/-- `vol_osc_result` / `determine_vol_osc_result` (`backtest.py` lines
73-94, `stock_fetcher.py` lines 111-134): categorical label of the
volume oscillator, `"N/A"` whenever the oscillator or either moving
average is NaN. -/
def vol_osc_result (price : ℚ) (ma5 ma10 : Option ℚ) (vo : Osc) : String :=
  if vo = Osc.nan ∨ ma5 = none ∨ ma10 = none then "N/A"
  else
    let m5 := ma5.getD 0
    let m10 := ma10.getD 0
    let priceAboveMa := decide (m5 < price) && decide (m10 < price)
    let priceBelowMa := decide (price < m5) && decide (price < m10)
    if priceAboveMa && vo.geQ 20 then "STRONG"
    else if priceAboveMa && vo.leQ (-15) then "BEARISH INDICATOR"
    else if priceBelowMa && vo.geQ 20 then "ACCUM"
    else if priceBelowMa && vo.leQ (-15) then "CONFIRM BEARISH"
    else if vo.gtQ 0 then "UP"
    else "DOWN"

/-- `backtest.py` lines 57-62: `np.where(Price > MA, 1, np.where(Price < MA, -1, 0))`.
Both comparisons are False against NaN, so a NaN moving average scores 0. -/
def scoreMA_bt (price : ℚ) (ma : Option ℚ) : ℤ :=
  match ma with
  | none => 0
  | some m => if m < price then 1 else if price < m then -1 else 0

/-- `backtest.py` lines 65-66:
`np.where((rsi >= 50) & (rsi <= 75), 1, np.where((rsi > 30) & (rsi < 50), 0, -1))`.
Every comparison is False against NaN, so a NaN RSI falls through to the
final else branch and scores -1. -/
def scoreRSI_bt (rsi : Option ℚ) : ℤ :=
  match rsi with
  | none => -1
  | some r => if 50 ≤ r ∧ r ≤ 75 then 1 else if 30 < r ∧ r < 50 then 0 else -1

/-- `backtest.py` lines 69-70:
`np.where(dir == 1, 1, np.where(dir == -1, -1, 0))` (NaN equals nothing). -/
def scoreST_bt (d : Option ℚ) : ℤ :=
  match d with
  | none => 0
  | some x => if x = 1 then 1 else if x = -1 then -1 else 0

/-- `backtest.py` lines 99-103: dictionary mapping of the label with
`.fillna(0)` for unmapped labels. -/
def scoreVolOsc_bt (label : String) : ℤ :=
  if label = "STRONG" ∨ label = "ACCUM" ∨ label = "UP" then 1
  else if label = "BEARISH INDICATOR" ∨ label = "CONFIRM BEARISH" ∨ label = "DOWN" then -1
  else 0

/-- One row of the DataFrame produced by `calculate_indicators`
(`backtest.py` lines 23-109): raw indicator columns plus the five scores
and the composite `Indicator`. -/
structure SRow where
  price : ℚ
  ma5 : Option ℚ
  ma10 : Option ℚ
  rsi : Option ℚ
  stDir : Option ℚ
  volOsc : Osc
  volOscResult : String
  scoreMA5 : ℤ
  scoreMA10 : ℤ
  scoreRSI : ℤ
  scoreST : ℤ
  scoreVolOsc : ℤ
  indicator : ℤ
deriving DecidableEq

instance : Inhabited SRow :=
  ⟨⟨0, none, none, none, none, Osc.nan, "N/A", 0, 0, 0, 0, 0, 0⟩⟩

/-- Row `i` of `calculate_indicators` applied to `bars`. -/
def calcRow (bars : List Bar) (i : ℕ) : SRow :=
  let b := bars.getD i default
  let price := b.close
  let closes := bars.map Bar.close
  let vols := bars.map Bar.volume
  let ma5 := sma closes 5 i
  let ma10 := sma closes 10 i
  let vo := oscOf (sma vols 5 i) (sma vols 10 i)
  let vres := vol_osc_result price ma5 ma10 vo
  let s1 := scoreMA_bt price ma5
  let s2 := scoreMA_bt price ma10
  let s3 := scoreRSI_bt b.rsi
  let s4 := scoreST_bt b.stDir
  let s5 := scoreVolOsc_bt vres
  { price := price, ma5 := ma5, ma10 := ma10, rsi := b.rsi, stDir := b.stDir,
    volOsc := vo, volOscResult := vres,
    scoreMA5 := s1, scoreMA10 := s2, scoreRSI := s3, scoreST := s4, scoreVolOsc := s5,
    indicator := s1 + s2 + s3 + s4 + s5 }

/-- `calculate_indicators` (`backtest.py` lines 23-109): one scored row
per input bar, in order. -/
def calculate_indicators (bars : List Bar) : List SRow :=
  (List.range bars.length).map (calcRow bars)

/-- `stock_fetcher.py` lines 140-147 (`score_ma5`): explicit
`pd.isna` check, then sign of `Price - MA_5`. -/
def score_ma5_f (price : ℚ) (ma5 : Option ℚ) : ℤ :=
  match ma5 with
  | none => 0
  | some m => if m < price then 1 else if price < m then -1 else 0

/-- `stock_fetcher.py` lines 150-157 (`score_ma10`). -/
def score_ma10_f (price : ℚ) (ma10 : Option ℚ) : ℤ :=
  match ma10 with
  | none => 0
  | some m => if m < price then 1 else if price < m then -1 else 0

/-- `stock_fetcher.py` lines 163-174 (`score_rsi`): NaN scores 0, RSI > 75
scores -1, RSI ≤ 30 scores -1, 50 ≤ RSI ≤ 75 scores +1, otherwise 0. -/
def score_rsi_f (rsi : Option ℚ) : ℤ :=
  match rsi with
  | none => 0
  | some r =>
      if 75 < r then -1
      else if r ≤ 30 then -1
      else if 50 ≤ r ∧ r ≤ 75 then 1
      else 0

/-- `stock_fetcher.py` lines 94-96: the `SuperTrend_Color` column derived
from the direction value (NaN equals nothing, hence `"NEUTRAL"`). -/
def supertrend_color (d : Option ℚ) : String :=
  match d with
  | none => "NEUTRAL"
  | some x => if x = 1 then "GREEN" else if x = -1 then "RED" else "NEUTRAL"

/-- `stock_fetcher.py` lines 177-182 (`score_supertrend`). -/
def score_supertrend_f (c : String) : ℤ :=
  if c = "GREEN" then 1 else if c = "RED" then -1 else 0

/-- `stock_fetcher.py` lines 185-191 (`score_vol_osc`). -/
def score_vol_osc_f (res : String) : ℤ :=
  if res = "STRONG" ∨ res = "ACCUM" ∨ res = "UP" then 1
  else if res = "BEARISH INDICATOR" ∨ res = "CONFIRM BEARISH" ∨ res = "DOWN" then -1
  else 0

/-- `stock_fetcher.py` line 200: the composite `Indicator` of the fetcher
variant, the sum of its five scores. -/
def indicator_f (price : ℚ) (ma5 ma10 rsi stDir : Option ℚ) (vres : String) : ℤ :=
  score_ma5_f price ma5 + score_ma10_f price ma10 + score_rsi_f rsi +
    score_supertrend_f (supertrend_color stDir) + score_vol_osc_f vres

/- ## Position simulator and performance evaluator (`backtest.py` lines 112-211) -/

/-- A value stored in one of the Python trade dictionaries. -/
inductive TVal where
  | i (z : ℤ)
  | q (r : ℚ)
  | s (str : String)
deriving DecidableEq

/-- A trade record, modelled as the key/value pairs of the dictionary the
source builds (`backtest.py` lines 149-155 and 161-168). -/
abbrev TradeD := List (String × TVal)

/-- First value bound to `key`, as a Python dictionary lookup. -/
def lookupKey : TradeD → String → Option TVal
  | [], _ => none
  | (k, v) :: rest, key => if k = key then some v else lookupKey rest key

/-- `d.get(key, dflt)`. -/
def dictGet (d : TradeD) (key : String) (dflt : TVal) : TVal :=
  (lookupKey d key).getD dflt

/-- The BUY dictionary of `backtest.py` lines 149-155 (the `date` column
is modelled by the bar's position in the backtested frame). -/
def mkBuy (date : ℕ) (price : ℚ) (shares : ℤ) (ind : ℤ) : TradeD :=
  [("date", TVal.i date), ("action", TVal.s "BUY"), ("price", TVal.q price),
   ("shares", TVal.i shares), ("indicator", TVal.i ind)]

/-- The SELL dictionary of `backtest.py` lines 161-168. -/
def mkSell (date : ℕ) (price : ℚ) (shares : ℤ) (ind : ℤ) (pnlPct : ℚ) : TradeD :=
  [("date", TVal.i date), ("action", TVal.s "SELL"), ("price", TVal.q price),
   ("shares", TVal.i shares), ("indicator", TVal.i ind), ("pnl_pct", TVal.q pnlPct)]

/-- `t['action'] == 'BUY'`. -/
def isBuy (t : TradeD) : Bool := lookupKey t "action" == some (TVal.s "BUY")

/-- `t['action'] == 'SELL'`. -/
def isSell (t : TradeD) : Bool := lookupKey t "action" == some (TVal.s "SELL")

/-- The `price` entry of a trade record (0 if absent). -/
def tPrice (t : TradeD) : ℚ :=
  match lookupKey t "price" with
  | some (TVal.q p) => p
  | _ => 0

/-- The `shares` entry of a trade record (0 if absent). -/
def tShares (t : TradeD) : ℤ :=
  match lookupKey t "shares" with
  | some (TVal.i n) => n
  | _ => 0

/-- The `pnl_pct` entry of a trade record, when present. -/
def tPnl (t : TradeD) : Option ℚ :=
  match lookupKey t "pnl_pct" with
  | some (TVal.q p) => some p
  | _ => none

/-- `t.get('pnl_pct', 0)` as the evaluator reads it
(`backtest.py` lines 186 and 189). -/
def tPnlD (t : TradeD) : ℚ := (tPnl t).getD 0

/-- The `position` variable: `'CASH'` or `'HOLDING'`. -/
inductive Pos where
  | cash
  | holding
deriving DecidableEq

/-- The mutable loop state of `backtest_strategy`
(`backtest.py` lines 130-134). -/
structure SimSt where
  capital : ℚ
  shares : ℤ
  position : Pos
  trades : List TradeD
  buyPrice : ℚ
deriving DecidableEq

/-- Loop state before the first bar (`backtest.py` lines 130-134). -/
def initSt (cap : ℚ) : SimSt :=
  { capital := cap, shares := 0, position := Pos.cash, trades := [], buyPrice := 0 }

/-- One iteration of the loop of `backtest.py` lines 136-171.  `i` is the
bar's position (its `date`), `row` the scored bar.  Note that on a buy
signal the `shares` variable is reassigned `capital // price` before the
`shares > 0` guard is tested, exactly as in the source. -/
def stepBar (buyT sellT : ℤ) (st : SimSt) (i : ℕ) (row : SRow) : SimSt :=
  let indicator := row.indicator
  let price := row.price
  if st.position = Pos.cash ∧ buyT ≤ indicator then
    let shares : ℤ := ⌊st.capital / price⌋
    if 0 < shares then
      { capital := st.capital - shares * price
        shares := shares
        position := Pos.holding
        trades := st.trades ++ [mkBuy i price shares indicator]
        buyPrice := price }
    else { st with shares := shares }
  else if st.position = Pos.holding ∧ indicator ≤ sellT then
    let pnlPct := (price - st.buyPrice) / st.buyPrice * 100
    { capital := st.capital + st.shares * price
      shares := 0
      position := Pos.cash
      trades := st.trades ++ [mkSell i price st.shares indicator pnlPct]
      buyPrice := 0 }
  else st

/-- `df.dropna()` over scored rows (`backtest.py` line 125): keep the rows
in which no column is NaN. -/
def SRow.hasNaN (r : SRow) : Bool :=
  r.ma5.isNone || r.ma10.isNone || r.rsi.isNone || r.stDir.isNone || (r.volOsc == Osc.nan)

/-- Rows surviving `df.dropna()`. -/
def dropna (rows : List SRow) : List SRow := rows.filter (fun r => !r.hasNaN)

/-- The final loop state of `backtest_strategy` over the NaN-free rows. -/
def simRun (buyT sellT : ℤ) (cap : ℚ) (rows : List SRow) : SimSt :=
  rows.enum.foldl (fun st p => stepBar buyT sellT st p.1 p.2) (initSt cap)

/-- Every intermediate loop state, in order (initial state first). -/
def simStates (buyT sellT : ℤ) (cap : ℚ) (rows : List SRow) : List SimSt :=
  rows.enum.scanl (fun st p => stepBar buyT sellT st p.1 p.2) (initSt cap)

/-- The result dictionary of `backtest_strategy` (`backtest.py`
lines 196-211). -/
structure StratResult where
  buy_threshold : ℤ
  sell_threshold : ℤ
  initial_capital : ℚ
  final_value : ℚ
  total_return_pct : ℚ
  buy_hold_return_pct : ℚ
  outperformance : ℚ
  num_trades : ℕ
  num_sells : ℕ
  win_rate : ℚ
  avg_win_pct : ℚ
  avg_loss_pct : ℚ
  final_position : Pos
  trades : List TradeD
deriving DecidableEq

/-- `np.mean` of a list of rationals (only ever applied to non-empty
lists by the source). -/
def listMean (l : List ℚ) : ℚ := l.sum / (l.length : ℚ)

/-- `backtest_strategy` (`backtest.py` lines 112-211): drop NaN rows,
reject runs shorter than 30 rows, fold the trading loop, then assemble
the performance metrics. -/
def backtest_strategy (df : List SRow) (buyT sellT : ℤ) (initial_capital : ℚ) :
    Option StratResult :=
  let rows := dropna df
  if rows.length < 30 then none
  else
    let fin := simRun buyT sellT initial_capital rows
    let final_price := (rows.getLastD default).price
    let final_value := fin.capital + (fin.shares : ℚ) * final_price
    let total_return := (final_value - initial_capital) / initial_capital * 100
    let buy_hold_shares : ℤ := ⌊initial_capital / (rows.getD 0 default).price⌋
    let buy_hold_value := (buy_hold_shares : ℚ) * final_price
    let buy_hold_return := (buy_hold_value - initial_capital) / initial_capital * 100
    let sell_trades := fin.trades.filter isSell
    let winning := sell_trades.filter (fun t => decide (0 < tPnlD t))
    let losing := sell_trades.filter (fun t => decide (tPnlD t ≤ 0))
    let win_rate := if sell_trades.length ≠ 0 then
        ((winning.length : ℚ) / (sell_trades.length : ℚ)) * 100 else 0
    let avg_win := if winning.length ≠ 0 then listMean (winning.map tPnlD) else 0
    let avg_loss := if losing.length ≠ 0 then listMean (losing.map tPnlD) else 0
    some
      { buy_threshold := buyT
        sell_threshold := sellT
        initial_capital := initial_capital
        final_value := final_value
        total_return_pct := total_return
        buy_hold_return_pct := buy_hold_return
        outperformance := total_return - buy_hold_return
        num_trades := fin.trades.length
        num_sells := sell_trades.length
        win_rate := win_rate
        avg_win_pct := avg_win
        avg_loss_pct := avg_loss
        final_position := fin.position
        trades := fin.trades }

/- ## Grid search (`backtest.py` lines 214-272) -/

/-- Python `range(lo, hi)` over the integers. -/
def intRange (lo hi : ℤ) : List ℤ :=
  (List.range (hi - lo).toNat).map (fun k : ℕ => lo + (k : ℤ))

/-- The threshold pairs enumerated by `run_backtest_grid`
(`backtest.py` lines 256-257): `buy_thresh in range(-2, 6)` and
`sell_thresh in range(-5, buy_thresh)`. -/
def gridPairs : List (ℤ × ℤ) :=
  (intRange (-2) 6).flatMap (fun b => (intRange (-5) b).map (fun s => (b, s)))

/-- The unsorted list of strategy results, one per pair whose backtest is
not rejected (`backtest.py` lines 256-260); the capital argument is the
source's default `initial_capital = 10000000`. -/
def gridResults (rows : List SRow) : List StratResult :=
  gridPairs.filterMap (fun p => backtest_strategy rows p.1 p.2 10000000)

/-- `results_df.sort_values('total_return_pct', ascending=False)`
(`backtest.py` line 270). -/
def sortByReturn (l : List StratResult) : List StratResult :=
  l.mergeSort (fun a b => decide (b.total_return_pct ≤ a.total_return_pct))

/-- `run_backtest_grid` restricted to its algorithmic core
(`backtest.py` lines 242-272): the input is the scored frame, which is
NaN-filtered once (line 243) before the grid loop; `None` when no pair
produced a result. -/
def run_backtest_grid (scored : List SRow) : Option (List StratResult) :=
  let d := dropna scored
  let results := gridResults d
  if results = [] then none else some (sortByReturn results)

/- ## Columns of the fetcher output and the live-monitor read (`stock_fetcher.py`
lines 203-232, `app.py` lines 296-305) -/

/-- `final_cols` (`stock_fetcher.py` lines 203-209): the columns selected
into the frame returned by `get_stock_data`. -/
def final_cols : List String :=
  ["Price", "MA_5", "MA_10", "RSI_Score",
   "SuperTrend", "SuperTrend_Color",
   "Vol_Osc", "Vol_Osc_Result",
   "Score_MA5", "Score_MA10", "Score_RSI", "Score_SuperTrend", "Score_VolOsc",
   "Indicator"]

/-- The column set of the returned frame after the `Date` column is
prepended (`stock_fetcher.py` line 232). -/
def result_columns : List String := "Date" :: final_cols

/-- One record of `df.to_dict('records')` / `iloc[-1].to_dict()` over the
fetcher output: a key/value pair per returned column. -/
def rowRecord (vals : String → TVal) : List (String × TVal) :=
  result_columns.map (fun c => (c, vals c))

/- ## Concrete inputs used to evaluate the definitions -/

/-- A NaN-free scored row with the given price and composite indicator,
used as concrete simulator input. -/
def testRow (p : ℚ) (ind : ℤ) : SRow :=
  { price := p, ma5 := some 0, ma10 := some 0, rsi := some 50, stDir := some 1,
    volOsc := Osc.fin 0, volOscResult := "UP",
    scoreMA5 := 0, scoreMA10 := 0, scoreRSI := 0, scoreST := 0, scoreVolOsc := 0,
    indicator := ind }

/-- A single bar whose RSI input is NaN (as on every warm-up bar). -/
def c1bars : List Bar := [{ close := 100, volume := 10, rsi := none, stDir := some 1 }]

/-- A single warm-up bar: `ta.rsi` is NaN for the first 14 bars. -/
def c2bars : List Bar := [{ close := 1, volume := 1, rsi := none, stDir := none }]

/-- 30 NaN-free rows with indicator 5: the simulator buys at bar 0 and
then holds to the end. -/
def c3rows : List SRow := List.replicate 30 (testRow 1 5)

/-- 30 NaN-free rows at constant price 3 and indicator 0 (no trades). -/
def c4rows : List SRow := List.replicate 30 (testRow 3 0)

/-- 29 NaN-free rows: one fewer than the minimum viable bar count. -/
def c5shortRows : List SRow := List.replicate 29 (testRow 1 0)

/-- 30 NaN-free rows: exactly the minimum viable bar count. -/
def c5longRows : List SRow := List.replicate 30 (testRow 1 0)

/-- A bar with zero volume. -/
def zBar : Bar := { close := 1, volume := 0, rsi := none, stDir := none }

/-- 10 bars of zero volume: the 10-bar trailing volume average at the
last bar is defined and equal to zero. -/
def c7bars : List Bar :=
  [zBar, zBar, zBar, zBar, zBar, zBar, zBar, zBar, zBar, zBar]

/-- 30 NaN-free rows with indicator 5 throughout: under thresholds
(0, -1) the simulator is still holding after the last bar. -/
def c9rows : List SRow := List.replicate 30 (testRow 1 5)

/-- Rows forcing exactly one BUY (bar 0 at price 10) and one SELL
(bar 1 at price 13) under thresholds (5, -5). -/
def c10rows : List SRow :=
  testRow 10 5 :: testRow 13 (-5) :: List.replicate 28 (testRow 13 0)

/-- The BUY record produced on `c10rows` (capital 1000: 100 shares). -/
def c10buy : TradeD := mkBuy 0 10 100 5

/-- The SELL record produced on `c10rows`: only a percentage P&L entry is
recorded, `(13 - 10) / 10 * 100 = 30`; the absolute P&L would be
`(13 - 10) * 100 = 300`. -/
def c10sell : TradeD := mkSell 1 13 100 (-5) 30

/- ## Structural invariant of the trade log -/

/-- `tchain ts eb bp eb' bp'` : starting from a state that expects a BUY
next iff `eb` (with open buy price `bp` when a SELL is expected), the
trade list `ts` is a well-formed alternating log that leaves the
simulator expecting a BUY iff `eb'` with open buy price `bp'`.  Each BUY
carries a positive share count; each SELL carries a non-negative share
count and the percentage P&L computed from the open buy price. -/
def tchain : List TradeD → Bool → ℚ → Bool → ℚ → Prop
  | [], eb, bp, eb', bp' => eb' = eb ∧ bp' = bp
  | t :: rest, true, _, eb', bp' =>
      isBuy t = true ∧ 0 < tShares t ∧ tchain rest false (tPrice t) eb' bp'
  | t :: rest, false, bp, eb', bp' =>
      isSell t = true ∧ 0 ≤ tShares t ∧
        tPnl t = some ((tPrice t - bp) / bp * 100) ∧ tchain rest true 0 eb' bp'

/-- `'CASH'` test on the position variable. -/
def Pos.isCash : Pos → Bool
  | .cash => true
  | .holding => false

/-- Invariant maintained by every iteration of the trading loop:
capital and share count never go negative, and the trade log is a
well-formed alternating log consistent with the current position and
open buy price. -/
def SimInv (st : SimSt) : Prop :=
  0 ≤ st.capital ∧ 0 ≤ st.shares ∧
    tchain st.trades true 0 st.position.isCash st.buyPrice

/-- Relation between two consecutive trades of a well-formed log: never
two BUYs, never two SELLs, and a SELL's percentage P&L is computed from
the price of the BUY immediately preceding it. -/
def tradeRel (a b : TradeD) : Prop :=
  ¬(isBuy a = true ∧ isBuy b = true) ∧ ¬(isSell a = true ∧ isSell b = true) ∧
    (isSell b = true → isBuy a = true ∧ tPnl b = some ((tPrice b - tPrice a) / tPrice a * 100))

lemma isBuy_mkBuy (date : ℕ) (p : ℚ) (sh ind : ℤ) : isBuy (mkBuy date p sh ind) = true := by
  rfl

lemma isSell_mkSell (date : ℕ) (p : ℚ) (sh ind : ℤ) (pnl : ℚ) :
    isSell (mkSell date p sh ind pnl) = true := by rfl

lemma not_isSell_of_isBuy {t : TradeD} (h : isBuy t = true) : isSell t = false := by
  unfold isBuy at h
  unfold isSell
  rw [beq_iff_eq] at h
  rw [h]
  rfl

lemma not_isBuy_of_isSell {t : TradeD} (h : isSell t = true) : isBuy t = false := by
  unfold isSell at h
  unfold isBuy
  rw [beq_iff_eq] at h
  rw [h]
  rfl

lemma tchain_snoc_buy {ts : List TradeD} {eb : Bool} {bp bp' : ℚ} {t : TradeD}
    (h : tchain ts eb bp true bp') (hb : isBuy t = true) (hs : 0 < tShares t) :
    tchain (ts ++ [t]) eb bp false (tPrice t) := by
  induction ts generalizing eb bp with
  | nil =>
      obtain ⟨he, -⟩ := h
      subst he
      exact ⟨hb, hs, rfl, rfl⟩
  | cons t' rest ih =>
      cases eb with
      | true =>
          obtain ⟨h1, h2, h3⟩ := h
          exact ⟨h1, h2, ih h3⟩
      | false =>
          obtain ⟨h1, h2, h3, h4⟩ := h
          exact ⟨h1, h2, h3, ih h4⟩

lemma tchain_snoc_sell {ts : List TradeD} {eb : Bool} {bp bp' : ℚ} {t : TradeD}
    (h : tchain ts eb bp false bp') (hb : isSell t = true) (hs : 0 ≤ tShares t)
    (hpnl : tPnl t = some ((tPrice t - bp') / bp' * 100)) :
    tchain (ts ++ [t]) eb bp true 0 := by
  induction ts generalizing eb bp with
  | nil =>
      obtain ⟨he, hbp⟩ := h
      subst he
      subst hbp
      exact ⟨hb, hs, hpnl, rfl, rfl⟩
  | cons t' rest ih =>
      cases eb with
      | true =>
          obtain ⟨h1, h2, h3⟩ := h
          exact ⟨h1, h2, ih h3⟩
      | false =>
          obtain ⟨h1, h2, h3, h4⟩ := h
          exact ⟨h1, h2, h3, ih h4⟩

lemma tchain_mem {ts : List TradeD} {eb : Bool} {bp eb' bp' : _} (h : tchain ts eb bp eb' bp') :
    ∀ t ∈ ts, (isBuy t = true ∨ isSell t = true) ∧ 0 ≤ tShares t := by
  induction ts generalizing eb bp with
  | nil => intro t ht; cases ht
  | cons t' rest ih =>
      intro t ht
      rcases List.mem_cons.mp ht with h0 | hmem
      · subst h0
        cases eb with
        | true => exact ⟨Or.inl h.1, le_of_lt h.2.1⟩
        | false => exact ⟨Or.inr h.1, h.2.1⟩
      · cases eb with
        | true => exact ih h.2.2 t hmem
        | false => exact ih h.2.2.2 t hmem

lemma tchain_head_buy {ts : List TradeD} {bp eb' bp' : _} (h : tchain ts true bp eb' bp') :
    ∀ t ∈ ts.head?, isBuy t = true := by
  cases ts with
  | nil => intro t ht; cases ht
  | cons t' rest =>
      intro t ht
      have h0 : t' = t := by simpa using ht
      subst h0
      exact h.1

lemma tchain_chain {ts : List TradeD} {eb : Bool} {bp eb' bp' : _}
    (h : tchain ts eb bp eb' bp') : List.Chain' tradeRel ts := by
  induction ts generalizing eb bp with
  | nil => exact List.chain'_nil
  | cons t' rest ih =>
      rw [List.chain'_cons']
      cases eb with
      | true =>
          obtain ⟨hb, -, htail⟩ := h
          refine ⟨?_, ih htail⟩
          intro y hy
          cases rest with
          | nil => cases hy
          | cons y' rest' =>
              have h0 : y' = y := by simpa using hy
              subst h0
              obtain ⟨hsel, -, hpnl, -⟩ := htail
              refine ⟨?_, ?_, fun _ => ⟨hb, hpnl⟩⟩
              · intro hcon
                rw [not_isBuy_of_isSell hsel] at hcon
                exact Bool.false_ne_true hcon.2
              · intro hcon
                rw [not_isSell_of_isBuy hb] at hcon
                exact Bool.false_ne_true hcon.1
      | false =>
          obtain ⟨hsel, -, -, htail⟩ := h
          refine ⟨?_, ih htail⟩
          intro y hy
          cases rest with
          | nil => cases hy
          | cons y' rest' =>
              have h0 : y' = y := by simpa using hy
              subst h0
              obtain ⟨hbuy, -, -⟩ := htail
              refine ⟨?_, ?_, ?_⟩
              · intro hcon
                rw [not_isBuy_of_isSell hsel] at hcon
                exact Bool.false_ne_true hcon.1
              · intro hcon
                rw [not_isSell_of_isBuy hbuy] at hcon
                exact Bool.false_ne_true hcon.2
              · intro hcon
                rw [not_isSell_of_isBuy hbuy] at hcon
                cases hcon

lemma tchain_last_aux {ts : List TradeD} {eb : Bool} {bp bp' : _}
    (h : tchain ts eb bp false bp') :
    (ts = [] ∧ eb = false) ∨ ∃ t, ts.getLast? = some t ∧ isBuy t = true ∧ tPrice t = bp' := by
  induction ts generalizing eb bp with
  | nil =>
      obtain ⟨he, -⟩ := h
      exact Or.inl ⟨rfl, he.symm⟩
  | cons t' rest ih =>
      cases rest with
      | nil =>
          cases eb with
          | true =>
              obtain ⟨hb, -, hnil⟩ := h
              obtain ⟨-, hbp⟩ := hnil
              exact Or.inr ⟨t', rfl, hb, hbp.symm⟩
          | false =>
              obtain ⟨-, -, -, hnil⟩ := h
              obtain ⟨he, -⟩ := hnil
              cases he
      | cons y rest' =>
          have step : ∃ eb2 bp2, tchain (y :: rest') eb2 bp2 false bp' := by
            cases eb with
            | true => exact ⟨false, tPrice t', h.2.2⟩
            | false => exact ⟨true, 0, h.2.2.2⟩
          obtain ⟨eb2, bp2, hstep⟩ := step
          rcases ih hstep with ⟨hcon, -⟩ | ⟨t, hlast, hbuy, hbp⟩
          · cases hcon
          · exact Or.inr ⟨t, by simpa using hlast, hbuy, hbp⟩

/-- A trade log that leaves the simulator holding ends with the opening
BUY, whose recorded price is the open buy price. -/
lemma tchain_last_buy {ts : List TradeD} {bp bp' : _}
    (h : tchain ts true bp false bp') :
    ∃ t, ts.getLast? = some t ∧ isBuy t = true ∧ tPrice t = bp' := by
  rcases tchain_last_aux h with ⟨-, hcon⟩ | hok
  · cases hcon
  · exact hok

/- ## Simulator invariant -/

lemma stepBar_eq_buy {buyT sellT : ℤ} {st : SimSt} {i : ℕ} {row : SRow}
    (h1 : st.position = Pos.cash ∧ buyT ≤ row.indicator)
    (h2 : 0 < ⌊st.capital / row.price⌋) :
    stepBar buyT sellT st i row =
      { capital := st.capital - (⌊st.capital / row.price⌋ : ℚ) * row.price
        shares := ⌊st.capital / row.price⌋
        position := Pos.holding
        trades := st.trades ++ [mkBuy i row.price ⌊st.capital / row.price⌋ row.indicator]
        buyPrice := row.price } := by
  simp only [stepBar]
  rw [if_pos h1, if_pos h2]

lemma stepBar_eq_nobuy {buyT sellT : ℤ} {st : SimSt} {i : ℕ} {row : SRow}
    (h1 : st.position = Pos.cash ∧ buyT ≤ row.indicator)
    (h2 : ¬0 < ⌊st.capital / row.price⌋) :
    stepBar buyT sellT st i row = { st with shares := ⌊st.capital / row.price⌋ } := by
  simp only [stepBar]
  rw [if_pos h1, if_neg h2]

lemma stepBar_eq_sell {buyT sellT : ℤ} {st : SimSt} {i : ℕ} {row : SRow}
    (h1 : ¬(st.position = Pos.cash ∧ buyT ≤ row.indicator))
    (h2 : st.position = Pos.holding ∧ row.indicator ≤ sellT) :
    stepBar buyT sellT st i row =
      { capital := st.capital + (st.shares : ℚ) * row.price
        shares := 0
        position := Pos.cash
        trades := st.trades ++
          [mkSell i row.price st.shares row.indicator
            ((row.price - st.buyPrice) / st.buyPrice * 100)]
        buyPrice := 0 } := by
  simp only [stepBar]
  rw [if_neg h1, if_pos h2]

lemma stepBar_eq_skip {buyT sellT : ℤ} {st : SimSt} {i : ℕ} {row : SRow}
    (h1 : ¬(st.position = Pos.cash ∧ buyT ≤ row.indicator))
    (h2 : ¬(st.position = Pos.holding ∧ row.indicator ≤ sellT)) :
    stepBar buyT sellT st i row = st := by
  simp only [stepBar]
  rw [if_neg h1, if_neg h2]

lemma stepBar_inv (buyT sellT : ℤ) (st : SimSt) (i : ℕ) (row : SRow)
    (hp : 0 ≤ row.price) (h : SimInv st) : SimInv (stepBar buyT sellT st i row) := by
  obtain ⟨hcap, hsh, hch⟩ := h
  by_cases h1 : st.position = Pos.cash ∧ buyT ≤ row.indicator
  · by_cases h2 : 0 < ⌊st.capital / row.price⌋
    · rw [stepBar_eq_buy h1 h2]
      have hpp : 0 < row.price := by
        rcases lt_or_eq_of_le hp with hlt | heq
        · exact hlt
        · exfalso
          rw [← heq, div_zero] at h2
          simp at h2
      have hfl : (⌊st.capital / row.price⌋ : ℚ) ≤ st.capital / row.price :=
        Int.floor_le _
      have hmul : (⌊st.capital / row.price⌋ : ℚ) * row.price ≤ st.capital := by
        have := mul_le_mul_of_nonneg_right hfl (le_of_lt hpp)
        rwa [div_mul_cancel₀ _ (ne_of_gt hpp)] at this
      have hcash : st.position.isCash = true := by rw [h1.1]; rfl
      rw [hcash] at hch
      refine ⟨by linarith, le_of_lt h2, ?_⟩
      have hb := @tchain_snoc_buy st.trades true 0 st.buyPrice
        (mkBuy i row.price ⌊st.capital / row.price⌋ row.indicator) hch
        (isBuy_mkBuy i row.price ⌊st.capital / row.price⌋ row.indicator)
        (by simpa [tShares, mkBuy, lookupKey] using h2)
      simpa [tPrice, mkBuy, lookupKey, Pos.isCash] using hb
    · rw [stepBar_eq_nobuy h1 h2]
      refine ⟨hcap, ?_, hch⟩
      exact Int.floor_nonneg.mpr (div_nonneg hcap hp)
  · by_cases h2 : st.position = Pos.holding ∧ row.indicator ≤ sellT
    · rw [stepBar_eq_sell h1 h2]
      have hhold : st.position.isCash = false := by rw [h2.1]; rfl
      rw [hhold] at hch
      refine ⟨?_, le_refl 0, ?_⟩
      · have : (0 : ℚ) ≤ (st.shares : ℚ) * row.price :=
          mul_nonneg (by exact_mod_cast hsh) hp
        linarith
      · have hb := @tchain_snoc_sell st.trades true 0 st.buyPrice
          (mkSell i row.price st.shares row.indicator
            ((row.price - st.buyPrice) / st.buyPrice * 100))
          hch
          (isSell_mkSell i row.price st.shares row.indicator
            ((row.price - st.buyPrice) / st.buyPrice * 100))
          (by simpa [tShares, mkSell, lookupKey] using hsh)
          (by simp [tPnl, tPrice, mkSell, lookupKey])
        simpa [Pos.isCash] using hb
    · rw [stepBar_eq_skip h1 h2]
      exact ⟨hcap, hsh, hch⟩

/- ## Generic fold/scan helpers -/

lemma foldl_preserve {α β : Type} {P : α → Prop} (f : α → β → α) (l : List β) (a : α)
    (ha : P a) (hf : ∀ s x, x ∈ l → P s → P (f s x)) : P (l.foldl f a) := by
  induction l generalizing a with
  | nil => exact ha
  | cons x xs ih =>
      exact ih (f a x) (hf a x (List.mem_cons_self x xs) ha)
        (fun s y hy hs => hf s y (List.mem_cons_of_mem x hy) hs)

lemma scanl_preserve {α β : Type} {P : α → Prop} (f : α → β → α) (l : List β) (a : α)
    (ha : P a) (hf : ∀ s x, x ∈ l → P s → P (f s x)) : ∀ s ∈ l.scanl f a, P s := by
  induction l generalizing a with
  | nil =>
      intro s hs
      rw [List.scanl_nil] at hs
      have h0 : s = a := by simpa using hs
      rwa [h0]
  | cons x xs ih =>
      intro s hs
      rw [List.scanl_cons] at hs
      rcases List.mem_append.mp hs with hmem | hmem
      · have h0 : s = a := by simpa using hmem
        rwa [h0]
      · exact ih (f a x) (hf a x (List.mem_cons_self x xs) ha)
          (fun s' y hy hs' => hf s' y (List.mem_cons_of_mem x hy) hs') s hmem

lemma chain'_scanl {α β : Type} {R : α → α → Prop} (f : α → β → α) (l : List β) (a : α)
    (hf : ∀ s x, x ∈ l → R s (f s x)) : List.Chain' R (l.scanl f a) := by
  induction l generalizing a with
  | nil =>
      rw [List.scanl_nil]
      exact List.chain'_singleton a
  | cons x xs ih =>
      rw [List.scanl_cons]
      rw [List.singleton_append, List.chain'_cons']
      constructor
      · intro y hy
        have hhead : (xs.scanl f (f a x)).head? = some (f a x) := by
          cases xs <;> simp [List.scanl]
        rw [hhead] at hy
        have h0 : f a x = y := by simpa using hy
        rw [← h0]
        exact hf a x (List.mem_cons_self x xs)
      · exact ih (f a x)
          (fun s y hy => hf s y (List.mem_cons_of_mem x hy))

lemma mem_enumFrom_snd {α : Type} {l : List α} {n : ℕ} {p : ℕ × α}
    (h : p ∈ List.enumFrom n l) : p.2 ∈ l := by
  induction l generalizing n with
  | nil => cases h
  | cons x xs ih =>
      rcases List.mem_cons.mp h with h0 | hmem
      · rw [h0]
        exact List.mem_cons_self x xs
      · exact List.mem_cons_of_mem x (ih hmem)

lemma mem_enum_snd {α : Type} {l : List α} {p : ℕ × α} (h : p ∈ l.enum) : p.2 ∈ l :=
  mem_enumFrom_snd h

/- ## The simulator invariant holds along every run -/

lemma simInv_init (cap : ℚ) (hcap : 0 ≤ cap) : SimInv (initSt cap) :=
  ⟨hcap, le_refl 0, rfl, rfl⟩

lemma simRun_inv (buyT sellT : ℤ) (cap : ℚ) (rows : List SRow)
    (hcap : 0 ≤ cap) (hp : ∀ r ∈ rows, 0 ≤ r.price) :
    SimInv (simRun buyT sellT cap rows) := by
  unfold simRun
  refine foldl_preserve _ _ _ (simInv_init cap hcap) ?_
  intro st x hx hst
  exact stepBar_inv buyT sellT st x.1 x.2 (hp x.2 (mem_enum_snd hx)) hst

lemma simStates_inv (buyT sellT : ℤ) (cap : ℚ) (rows : List SRow)
    (hcap : 0 ≤ cap) (hp : ∀ r ∈ rows, 0 ≤ r.price) :
    ∀ st ∈ simStates buyT sellT cap rows, SimInv st := by
  unfold simStates
  refine scanl_preserve _ _ _ (simInv_init cap hcap) ?_
  intro st x hx hst
  exact stepBar_inv buyT sellT st x.1 x.2 (hp x.2 (mem_enum_snd hx)) hst

/-- Each loop iteration appends at most one trade, a BUY only from
`CASH` and a SELL only from `HOLDING`. -/
def stepAppends (st st' : SimSt) : Prop :=
  st'.trades = st.trades ∨
    ∃ t, st'.trades = st.trades ++ [t] ∧
      (isBuy t = true → st.position = Pos.cash) ∧
      (isSell t = true → st.position = Pos.holding)

lemma stepBar_appends (buyT sellT : ℤ) (st : SimSt) (i : ℕ) (row : SRow) :
    stepAppends st (stepBar buyT sellT st i row) := by
  by_cases h1 : st.position = Pos.cash ∧ buyT ≤ row.indicator
  · by_cases h2 : 0 < ⌊st.capital / row.price⌋
    · rw [stepBar_eq_buy h1 h2]
      refine Or.inr ⟨_, rfl, fun _ => h1.1, fun hcon => ?_⟩
      rw [not_isSell_of_isBuy (isBuy_mkBuy i row.price _ row.indicator)] at hcon
      cases hcon
    · rw [stepBar_eq_nobuy h1 h2]
      exact Or.inl rfl
  · by_cases h2 : st.position = Pos.holding ∧ row.indicator ≤ sellT
    · rw [stepBar_eq_sell h1 h2]
      refine Or.inr ⟨_, rfl, fun hcon => ?_, fun _ => h2.1⟩
      rw [not_isBuy_of_isSell (isSell_mkSell i row.price st.shares row.indicator _)] at hcon
      cases hcon
    · rw [stepBar_eq_skip h1 h2]
      exact Or.inl rfl

/- ## Shape of `backtest_strategy`'s output -/

lemma backtest_strategy_none {df : List SRow} {buyT sellT : ℤ} {cap : ℚ}
    (hlen : (dropna df).length < 30) :
    backtest_strategy df buyT sellT cap = none := by
  simp only [backtest_strategy]
  rw [if_pos hlen]

lemma backtest_strategy_isSome {df : List SRow} {buyT sellT : ℤ} {cap : ℚ}
    (hlen : ¬(dropna df).length < 30) :
    (backtest_strategy df buyT sellT cap).isSome = true := by
  simp only [backtest_strategy]
  rw [if_neg hlen]
  rfl

lemma backtest_fields {df : List SRow} {buyT sellT : ℤ} {cap : ℚ} {res : StratResult}
    (h : backtest_strategy df buyT sellT cap = some res) :
    30 ≤ (dropna df).length ∧
    res.trades = (simRun buyT sellT cap (dropna df)).trades ∧
    res.final_position = (simRun buyT sellT cap (dropna df)).position ∧
    res.final_value = (simRun buyT sellT cap (dropna df)).capital +
      ((simRun buyT sellT cap (dropna df)).shares : ℚ) *
        ((dropna df).getLastD default).price ∧
    res.buy_hold_return_pct =
      ((⌊cap / ((dropna df).getD 0 default).price⌋ : ℚ) *
          ((dropna df).getLastD default).price - cap) / cap * 100 ∧
    res.num_sells = ((simRun buyT sellT cap (dropna df)).trades.filter isSell).length ∧
    res.num_trades = (simRun buyT sellT cap (dropna df)).trades.length := by
  by_cases hlen : (dropna df).length < 30
  · rw [backtest_strategy_none hlen] at h
    cases h
  · simp only [backtest_strategy] at h
    rw [if_neg hlen] at h
    have h0 := Option.some.inj h
    refine ⟨by omega, ?_, ?_, ?_, ?_, ?_, ?_⟩ <;> rw [← h0]

/- ## Score range lemmas -/

lemma cases_bound {s : ℤ} (h : s = -1 ∨ s = 0 ∨ s = 1) : -1 ≤ s ∧ s ≤ 1 := by
  rcases h with h | h | h <;> simp [h]

lemma scoreMA_bt_cases (p : ℚ) (m : Option ℚ) :
    scoreMA_bt p m = -1 ∨ scoreMA_bt p m = 0 ∨ scoreMA_bt p m = 1 := by
  cases m with
  | none => simp [scoreMA_bt]
  | some x =>
      simp only [scoreMA_bt]
      split_ifs <;> simp

lemma scoreRSI_bt_cases (r : Option ℚ) :
    scoreRSI_bt r = -1 ∨ scoreRSI_bt r = 0 ∨ scoreRSI_bt r = 1 := by
  cases r with
  | none => simp [scoreRSI_bt]
  | some x =>
      simp only [scoreRSI_bt]
      split_ifs <;> simp

lemma scoreST_bt_cases (d : Option ℚ) :
    scoreST_bt d = -1 ∨ scoreST_bt d = 0 ∨ scoreST_bt d = 1 := by
  cases d with
  | none => simp [scoreST_bt]
  | some x =>
      simp only [scoreST_bt]
      split_ifs <;> simp

lemma scoreVolOsc_bt_cases (label : String) :
    scoreVolOsc_bt label = -1 ∨ scoreVolOsc_bt label = 0 ∨ scoreVolOsc_bt label = 1 := by
  simp only [scoreVolOsc_bt]
  split_ifs <;> simp

lemma score_ma5_f_cases (p : ℚ) (m : Option ℚ) :
    score_ma5_f p m = -1 ∨ score_ma5_f p m = 0 ∨ score_ma5_f p m = 1 := by
  cases m with
  | none => simp [score_ma5_f]
  | some x =>
      simp only [score_ma5_f]
      split_ifs <;> simp

lemma score_ma10_f_cases (p : ℚ) (m : Option ℚ) :
    score_ma10_f p m = -1 ∨ score_ma10_f p m = 0 ∨ score_ma10_f p m = 1 := by
  cases m with
  | none => simp [score_ma10_f]
  | some x =>
      simp only [score_ma10_f]
      split_ifs <;> simp

lemma score_rsi_f_cases (r : Option ℚ) :
    score_rsi_f r = -1 ∨ score_rsi_f r = 0 ∨ score_rsi_f r = 1 := by
  cases r with
  | none => simp [score_rsi_f]
  | some x =>
      simp only [score_rsi_f]
      split_ifs <;> simp

lemma score_supertrend_f_cases (c : String) :
    score_supertrend_f c = -1 ∨ score_supertrend_f c = 0 ∨ score_supertrend_f c = 1 := by
  simp only [score_supertrend_f]
  split_ifs <;> simp

lemma score_vol_osc_f_cases (res : String) :
    score_vol_osc_f res = -1 ∨ score_vol_osc_f res = 0 ∨ score_vol_osc_f res = 1 := by
  simp only [score_vol_osc_f]
  split_ifs <;> simp

lemma calcRow_indicator_eq (bars : List Bar) (i : ℕ) :
    (calcRow bars i).indicator = (calcRow bars i).scoreMA5 + (calcRow bars i).scoreMA10 +
      (calcRow bars i).scoreRSI + (calcRow bars i).scoreST + (calcRow bars i).scoreVolOsc := rfl

/-- C1: for every bar of the scored series produced by the indicator
pipeline (both the `calculate_indicators` variant of `backtest.py` and
the score columns of `stock_fetcher.py`), the composite `Indicator`
equals the exact integer sum of the five per-indicator scores, each of
which lies in -1/0/+1, so `Indicator` always lies in [-5, 5]. -/
theorem C1_indicator_bounded_sum :
    (∀ bars : List Bar, ∀ row ∈ calculate_indicators bars,
      row.indicator = row.scoreMA5 + row.scoreMA10 + row.scoreRSI +
        row.scoreST + row.scoreVolOsc ∧
      (row.scoreMA5 = -1 ∨ row.scoreMA5 = 0 ∨ row.scoreMA5 = 1) ∧
      (row.scoreMA10 = -1 ∨ row.scoreMA10 = 0 ∨ row.scoreMA10 = 1) ∧
      (row.scoreRSI = -1 ∨ row.scoreRSI = 0 ∨ row.scoreRSI = 1) ∧
      (row.scoreST = -1 ∨ row.scoreST = 0 ∨ row.scoreST = 1) ∧
      (row.scoreVolOsc = -1 ∨ row.scoreVolOsc = 0 ∨ row.scoreVolOsc = 1) ∧
      -5 ≤ row.indicator ∧ row.indicator ≤ 5) ∧
    (∀ (price : ℚ) (ma5 ma10 rsi stDir : Option ℚ) (vres : String),
      indicator_f price ma5 ma10 rsi stDir vres =
        score_ma5_f price ma5 + score_ma10_f price ma10 + score_rsi_f rsi +
          score_supertrend_f (supertrend_color stDir) + score_vol_osc_f vres ∧
      -5 ≤ indicator_f price ma5 ma10 rsi stDir vres ∧
      indicator_f price ma5 ma10 rsi stDir vres ≤ 5) := by
  constructor
  · intro bars row hmem
    simp only [calculate_indicators] at hmem
    rcases List.mem_map.mp hmem with ⟨i, -, rfl⟩
    have h1 : (calcRow bars i).scoreMA5 = -1 ∨ (calcRow bars i).scoreMA5 = 0 ∨
        (calcRow bars i).scoreMA5 = 1 := scoreMA_bt_cases _ _
    have h2 : (calcRow bars i).scoreMA10 = -1 ∨ (calcRow bars i).scoreMA10 = 0 ∨
        (calcRow bars i).scoreMA10 = 1 := scoreMA_bt_cases _ _
    have h3 : (calcRow bars i).scoreRSI = -1 ∨ (calcRow bars i).scoreRSI = 0 ∨
        (calcRow bars i).scoreRSI = 1 := scoreRSI_bt_cases _
    have h4 : (calcRow bars i).scoreST = -1 ∨ (calcRow bars i).scoreST = 0 ∨
        (calcRow bars i).scoreST = 1 := scoreST_bt_cases _
    have h5 : (calcRow bars i).scoreVolOsc = -1 ∨ (calcRow bars i).scoreVolOsc = 0 ∨
        (calcRow bars i).scoreVolOsc = 1 := scoreVolOsc_bt_cases _
    have b1 := cases_bound h1
    have b2 := cases_bound h2
    have b3 := cases_bound h3
    have b4 := cases_bound h4
    have b5 := cases_bound h5
    have e := calcRow_indicator_eq bars i
    exact ⟨e, h1, h2, h3, h4, h5, by omega, by omega⟩
  · intro price ma5 ma10 rsi stDir vres
    have b1 := cases_bound (score_ma5_f_cases price ma5)
    have b2 := cases_bound (score_ma10_f_cases price ma10)
    have b3 := cases_bound (score_rsi_f_cases rsi)
    have b4 := cases_bound (score_supertrend_f_cases (supertrend_color stDir))
    have b5 := cases_bound (score_vol_osc_f_cases vres)
    have e : indicator_f price ma5 ma10 rsi stDir vres =
        score_ma5_f price ma5 + score_ma10_f price ma10 + score_rsi_f rsi +
          score_supertrend_f (supertrend_color stDir) + score_vol_osc_f vres := rfl
    exact ⟨e, by omega, by omega⟩

/-- Witness for C1 at a concrete one-bar series. -/
theorem C1_indicator_bounded_sum_w :
    (calcRow c1bars 0).indicator = (calcRow c1bars 0).scoreMA5 + (calcRow c1bars 0).scoreMA10 +
      (calcRow c1bars 0).scoreRSI + (calcRow c1bars 0).scoreST + (calcRow c1bars 0).scoreVolOsc ∧
    ((calcRow c1bars 0).scoreMA5 = -1 ∨ (calcRow c1bars 0).scoreMA5 = 0 ∨
      (calcRow c1bars 0).scoreMA5 = 1) ∧
    ((calcRow c1bars 0).scoreMA10 = -1 ∨ (calcRow c1bars 0).scoreMA10 = 0 ∨
      (calcRow c1bars 0).scoreMA10 = 1) ∧
    ((calcRow c1bars 0).scoreRSI = -1 ∨ (calcRow c1bars 0).scoreRSI = 0 ∨
      (calcRow c1bars 0).scoreRSI = 1) ∧
    ((calcRow c1bars 0).scoreST = -1 ∨ (calcRow c1bars 0).scoreST = 0 ∨
      (calcRow c1bars 0).scoreST = 1) ∧
    ((calcRow c1bars 0).scoreVolOsc = -1 ∨ (calcRow c1bars 0).scoreVolOsc = 0 ∨
      (calcRow c1bars 0).scoreVolOsc = 1) ∧
    -5 ≤ (calcRow c1bars 0).indicator ∧ (calcRow c1bars 0).indicator ≤ 5 :=
  C1_indicator_bounded_sum.1 c1bars (calcRow c1bars 0) (by decide)

/-- C2 counterexample: in `calculate_indicators` (`backtest.py`), a bar
whose 14-period RSI is undefined (NaN, as on every warm-up bar) receives
RSI score -1, not 0: the NaN falls through both `np.where` conditions to
the final else branch.  This refutes the claim that an undefined RSI
never yields a nonzero score in both scoring variants. -/
theorem C2_rsi_nan_cex :
    (calcRow c2bars 0).rsi = none ∧
    (calculate_indicators c2bars).map SRow.scoreRSI = [-1] ∧
    ((-1 : ℤ) ≠ 0) := by
  refine ⟨rfl, ?_, by decide⟩
  decide

/-- C2 amended: for a defined RSI value both variants agree with the
documented table (RSI > 75 scores -1, RSI ≤ 30 scores -1,
50 ≤ RSI ≤ 75 scores +1, 30 < RSI < 50 scores 0), but for an undefined
RSI the `stock_fetcher.py` variant scores 0 while the `backtest.py`
variant scores -1. -/
theorem C2_rsi_scoring :
    (∀ r : ℚ,
      (75 < r → scoreRSI_bt (some r) = -1 ∧ score_rsi_f (some r) = -1) ∧
      (r ≤ 30 → scoreRSI_bt (some r) = -1 ∧ score_rsi_f (some r) = -1) ∧
      (50 ≤ r ∧ r ≤ 75 → scoreRSI_bt (some r) = 1 ∧ score_rsi_f (some r) = 1) ∧
      (30 < r ∧ r < 50 → scoreRSI_bt (some r) = 0 ∧ score_rsi_f (some r) = 0) ∧
      scoreRSI_bt (some r) = score_rsi_f (some r)) ∧
    scoreRSI_bt none = -1 ∧ score_rsi_f none = 0 := by
  refine ⟨?_, rfl, rfl⟩
  intro r
  have p1 : 75 < r → scoreRSI_bt (some r) = -1 ∧ score_rsi_f (some r) = -1 := by
    intro h
    constructor
    · simp only [scoreRSI_bt]
      rw [if_neg (show ¬(50 ≤ r ∧ r ≤ 75) by rintro ⟨-, hb⟩; linarith),
        if_neg (show ¬(30 < r ∧ r < 50) by rintro ⟨-, hb⟩; linarith)]
    · simp only [score_rsi_f]
      rw [if_pos h]
  have p2 : r ≤ 30 → scoreRSI_bt (some r) = -1 ∧ score_rsi_f (some r) = -1 := by
    intro h
    constructor
    · simp only [scoreRSI_bt]
      rw [if_neg (show ¬(50 ≤ r ∧ r ≤ 75) by rintro ⟨ha, -⟩; linarith),
        if_neg (show ¬(30 < r ∧ r < 50) by rintro ⟨ha, -⟩; linarith)]
    · simp only [score_rsi_f]
      rw [if_neg (show ¬75 < r by linarith), if_pos h]
  have p3 : 50 ≤ r ∧ r ≤ 75 → scoreRSI_bt (some r) = 1 ∧ score_rsi_f (some r) = 1 := by
    rintro ⟨h1, h2⟩
    constructor
    · simp only [scoreRSI_bt]
      rw [if_pos ⟨h1, h2⟩]
    · simp only [score_rsi_f]
      rw [if_neg (show ¬75 < r by linarith), if_neg (show ¬r ≤ 30 by linarith),
        if_pos ⟨h1, h2⟩]
  have p4 : 30 < r ∧ r < 50 → scoreRSI_bt (some r) = 0 ∧ score_rsi_f (some r) = 0 := by
    rintro ⟨h1, h2⟩
    constructor
    · simp only [scoreRSI_bt]
      rw [if_neg (show ¬(50 ≤ r ∧ r ≤ 75) by rintro ⟨ha, -⟩; linarith),
        if_pos ⟨h1, h2⟩]
    · simp only [score_rsi_f]
      rw [if_neg (show ¬75 < r by linarith), if_neg (show ¬r ≤ 30 by linarith),
        if_neg (show ¬(50 ≤ r ∧ r ≤ 75) by rintro ⟨ha, -⟩; linarith)]
  refine ⟨p1, p2, p3, p4, ?_⟩
  by_cases hA : 75 < r
  · rw [(p1 hA).1, (p1 hA).2]
  · by_cases hB : r ≤ 30
    · rw [(p2 hB).1, (p2 hB).2]
    · by_cases hC : 50 ≤ r
      · rw [(p3 ⟨hC, by linarith⟩).1, (p3 ⟨hC, by linarith⟩).2]
      · rw [(p4 ⟨by linarith, by linarith⟩).1, (p4 ⟨by linarith, by linarith⟩).2]

/-- Witness for C2's amended theorem at concrete RSI values 80 and 60. -/
theorem C2_rsi_scoring_w :
    (scoreRSI_bt (some 80) = -1 ∧ score_rsi_f (some 80) = -1) ∧
    (scoreRSI_bt (some 60) = 1 ∧ score_rsi_f (some 60) = 1) :=
  ⟨(C2_rsi_scoring.1 80).1 (by norm_num),
   (C2_rsi_scoring.1 60).2.2.1 ⟨by norm_num, by norm_num⟩⟩

/- ## C7: zero or undefined long volume average -/

lemma getD_nonneg {xs : List ℚ} (h : ∀ x ∈ xs, 0 ≤ x) (n : ℕ) : 0 ≤ xs.getD n 0 := by
  induction xs generalizing n with
  | nil => simp [List.getD]
  | cons x rest ih =>
      cases n with
      | zero =>
          rw [List.getD_cons_zero]
          exact h x (List.mem_cons_self x rest)
      | succ m =>
          rw [List.getD_cons_succ]
          exact ih (fun y hy => h y (List.mem_cons_of_mem x hy)) m

lemma sum_nonneg_zero {l : List ℚ} (h : ∀ x ∈ l, 0 ≤ x) (hs : l.sum = 0) :
    ∀ x ∈ l, x = 0 := by
  induction l with
  | nil => intro x hx; cases hx
  | cons x rest ih =>
      rw [List.sum_cons] at hs
      have hx : 0 ≤ x := h x (List.mem_cons_self x rest)
      have hrest : ∀ y ∈ rest, 0 ≤ y := fun y hy => h y (List.mem_cons_of_mem x hy)
      have hsum : 0 ≤ rest.sum := List.sum_nonneg hrest
      have hx0 : x = 0 := by linarith
      have hs0 : rest.sum = 0 := by linarith
      intro y hy
      rcases List.mem_cons.mp hy with h0 | hmem
      · rw [h0, hx0]
      · exact ih hrest hs0 y hmem

/-- If every volume is non-negative and the 10-bar trailing average is
zero, the 5-bar trailing average (over a subset of the same window) is
also zero. -/
lemma sma_short_zero {xs : List ℚ} {i : ℕ} (h : ∀ x ∈ xs, 0 ≤ x)
    (h10 : sma xs 10 i = some 0) : sma xs 5 i = some 0 := by
  have hi : ¬i + 1 < 10 := by
    intro hc
    simp [sma, hc] at h10
  have hsum : (((List.range 10).map fun k => xs.getD (i - k) 0).sum) / (10 : ℚ) = 0 := by
    simpa [sma, hi] using h10
  have hsum0 : (((List.range 10).map fun k => xs.getD (i - k) 0).sum) = 0 := by
    rcases div_eq_zero_iff.mp hsum with h0 | h0
    · exact h0
    · norm_num at h0
  have hterm : ∀ k ∈ List.range 10, xs.getD (i - k) 0 = 0 := by
    intro k hk
    refine sum_nonneg_zero ?_ hsum0 (xs.getD (i - k) 0) ?_
    · intro x hx
      rcases List.mem_map.mp hx with ⟨k', -, rfl⟩
      exact getD_nonneg h _
    · exact List.mem_map.mpr ⟨k, hk, rfl⟩
  have hi5 : ¬i + 1 < 5 := by omega
  have hsum5 : (((List.range 5).map fun k => xs.getD (i - k) 0).sum) = 0 := by
    refine List.sum_eq_zero ?_
    intro x hx
    rcases List.mem_map.mp hx with ⟨k, hk, rfl⟩
    exact hterm k (List.mem_range.mpr (by have := List.mem_range.mp hk; omega))
  unfold sma
  rw [if_neg hi5, hsum5]
  norm_num

/-- C7: for every bar, when the 10-bar trailing volume average is zero or
undefined, the volume oscillator value is NaN (never a fault and never a
signed infinity given non-negative volumes), the label resolves to
`"N/A"`, and the volume-oscillator score is 0 (neutral). -/
theorem C7_vol_osc_zero_division (bars : List Bar) (i : ℕ) (row : SRow)
    (hv : ∀ b ∈ bars, 0 ≤ b.volume)
    (hrow : (calculate_indicators bars)[i]? = some row)
    (hlong : sma (bars.map Bar.volume) 10 i = none ∨
      sma (bars.map Bar.volume) 10 i = some 0) :
    row.volOsc = Osc.nan ∧ row.volOscResult = "N/A" ∧ row.scoreVolOsc = 0 := by
  have hvm : ∀ x ∈ bars.map Bar.volume, 0 ≤ x := by
    intro x hx
    rcases List.mem_map.mp hx with ⟨b, hb, rfl⟩
    exact hv b hb
  have hi : i < bars.length := by
    by_contra hc
    rw [calculate_indicators, List.getElem?_map] at hrow
    rw [List.getElem?_eq_none (by simpa [List.length_range] using hc)] at hrow
    cases hrow
  have hrow' : row = calcRow bars i := by
    rw [calculate_indicators, List.getElem?_map, List.getElem?_range hi] at hrow
    exact (Option.some.inj hrow).symm
  subst hrow'
  have hosc : (calcRow bars i).volOsc = Osc.nan := by
    show oscOf (sma (bars.map Bar.volume) 5 i) (sma (bars.map Bar.volume) 10 i) = Osc.nan
    rcases hlong with hnone | hzero
    · rw [hnone]
      cases sma (bars.map Bar.volume) 5 i <;> rfl
    · rw [hzero, sma_short_zero hvm hzero]
      simp [oscOf]
  refine ⟨hosc, ?_, ?_⟩
  · show vol_osc_result (bars.getD i default).close (sma (bars.map Bar.close) 5 i)
      (sma (bars.map Bar.close) 10 i) ((calcRow bars i).volOsc) = "N/A"
    rw [hosc]
    simp [vol_osc_result]
  · show scoreVolOsc_bt ((calcRow bars i).volOscResult) = 0
    have : (calcRow bars i).volOscResult = "N/A" := by
      show vol_osc_result (bars.getD i default).close (sma (bars.map Bar.close) 5 i)
        (sma (bars.map Bar.close) 10 i) ((calcRow bars i).volOsc) = "N/A"
      rw [hosc]
      simp [vol_osc_result]
    rw [this]
    rfl

/-- Witness for C7 on ten bars of zero volume, at row 9 (the first row
where the 10-bar volume average is defined, and equal to zero). -/
theorem C7_vol_osc_zero_division_w :
    (calcRow c7bars 9).volOsc = Osc.nan ∧
    (calcRow c7bars 9).volOscResult = "N/A" ∧
    (calcRow c7bars 9).scoreVolOsc = 0 :=
  C7_vol_osc_zero_division c7bars 9 (calcRow c7bars 9) (by decide)
    (by simp [calculate_indicators, List.getElem?_map, List.getElem?_range, c7bars])
    (Or.inr (by
      show sma (List.map Bar.volume c7bars) 10 9 = some 0
      have hm : List.map Bar.volume c7bars = List.replicate 10 0 := by
        simp [c7bars, zBar]
      rw [hm]
      unfold sma
      rw [if_neg (by omega)]
      norm_num [List.range_succ]))

/- ## Evaluation helpers for concrete runs -/

lemma foldl_fixed {α β : Type} (f : α → β → α) (l : List β) (a : α)
    (h : ∀ x ∈ l, f a x = a) : l.foldl f a = a := by
  induction l with
  | nil => rfl
  | cons x xs ih =>
      rw [List.foldl_cons, h x (List.mem_cons_self x xs)]
      exact ih (fun y hy => h y (List.mem_cons_of_mem x hy))

lemma getLastD_replicate {α : Type} (n : ℕ) (a d : α) :
    (List.replicate (n + 1) a).getLastD d = a := by
  induction n generalizing d with
  | zero => rfl
  | succ m ih =>
      rw [List.replicate_succ, List.getLastD_cons]
      exact ih a

lemma getD_zero_replicate {α : Type} (n : ℕ) (a d : α) :
    (List.replicate (n + 1) a).getD 0 d = a := by
  rw [List.replicate_succ, List.getD_cons_zero]

/-- C5: for every threshold pair, an input with fewer than 30 NaN-free
rows is rejected (`None`), and an input with at least 30 NaN-free rows
yields a populated strategy result, never a degenerate metric set. -/
theorem C5_min_bars (df : List SRow) (buyT sellT : ℤ) (cap : ℚ) :
    ((dropna df).length < 30 → backtest_strategy df buyT sellT cap = none) ∧
    (30 ≤ (dropna df).length → (backtest_strategy df buyT sellT cap).isSome = true) :=
  ⟨fun h => backtest_strategy_none h,
   fun h => backtest_strategy_isSome (by omega)⟩

/-- Witness for C5: 29 valid rows are rejected, 30 valid rows produce a
result. -/
theorem C5_min_bars_w :
    backtest_strategy c5shortRows 2 (-2) 100 = none ∧
    (backtest_strategy c5longRows 2 (-2) 100).isSome = true :=
  ⟨(C5_min_bars c5shortRows 2 (-2) 100).1 (by decide),
   (C5_min_bars c5longRows 2 (-2) 100).2 (by decide)⟩

/-- C3: the position simulator starts in CASH, its state is always CASH
or HOLDING, every bar appends at most one trade (a BUY only from CASH, a
SELL only from HOLDING), the running share count is never negative, and
in the emitted trade log the first trade is a BUY, the actions never
repeat consecutively, every trade is a BUY or a SELL, and every recorded
share count is non-negative. -/
theorem C3_simulator_state_machine (df : List SRow) (buyT sellT : ℤ) (cap : ℚ)
    (hcap : 0 ≤ cap) (hp : ∀ r ∈ df, 0 ≤ r.price) :
    (simStates buyT sellT cap (dropna df)).head? = some (initSt cap) ∧
    (initSt cap).position = Pos.cash ∧
    (∀ st ∈ simStates buyT sellT cap (dropna df),
      (st.position = Pos.cash ∨ st.position = Pos.holding) ∧ 0 ≤ st.shares) ∧
    List.Chain' stepAppends (simStates buyT sellT cap (dropna df)) ∧
    ∀ res, backtest_strategy df buyT sellT cap = some res →
      (∀ t ∈ res.trades.head?, isBuy t = true) ∧
      List.Chain' (fun a b => ¬(isBuy a = true ∧ isBuy b = true) ∧
        ¬(isSell a = true ∧ isSell b = true)) res.trades ∧
      ∀ t ∈ res.trades, (isBuy t = true ∨ isSell t = true) ∧ 0 ≤ tShares t := by
  have hp' : ∀ r ∈ dropna df, 0 ≤ r.price :=
    fun r hr => hp r (List.mem_of_mem_filter hr)
  refine ⟨?_, rfl, ?_, ?_, ?_⟩
  · unfold simStates
    cases (dropna df).enum <;> rfl
  · intro st hst
    have hinv := simStates_inv buyT sellT cap (dropna df) hcap hp' st hst
    refine ⟨?_, hinv.2.1⟩
    cases h : st.position
    · exact Or.inl rfl
    · exact Or.inr rfl
  · unfold simStates
    exact chain'_scanl _ _ _ (fun st x _ => stepBar_appends buyT sellT st x.1 x.2)
  · intro res hres
    have htr := (backtest_fields hres).2.1
    have hinv := simRun_inv buyT sellT cap (dropna df) hcap hp'
    obtain ⟨-, -, hch⟩ := hinv
    rw [htr]
    refine ⟨tchain_head_buy hch, ?_, ?_⟩
    · exact (tchain_chain hch).imp (fun a b hab => ⟨hab.1, hab.2.1⟩)
    · exact tchain_mem hch

/-- Witness for C3 on a 30-bar constant series with thresholds (0, -1)
and capital 100. -/
theorem C3_simulator_state_machine_w :
    (simStates 0 (-1) 100 (dropna c3rows)).head? = some (initSt 100) ∧
    ∀ st ∈ simStates 0 (-1) 100 (dropna c3rows),
      (st.position = Pos.cash ∨ st.position = Pos.holding) ∧ 0 ≤ st.shares :=
  ⟨(C3_simulator_state_machine c3rows 0 (-1) 100 (by norm_num) (by decide)).1,
   (C3_simulator_state_machine c3rows 0 (-1) 100 (by norm_num) (by decide)).2.2.1⟩

/- ## Concrete run evaluations -/

lemma dropna_c4 : dropna c4rows = c4rows := List.filter_eq_self.mpr (by decide)

lemma dropna_c9 : dropna c9rows = c9rows := List.filter_eq_self.mpr (by decide)

lemma dropna_c10 : dropna c10rows = c10rows := List.filter_eq_self.mpr (by decide)

lemma c4_first : ((dropna c4rows).getD 0 default).price = 3 := by
  rw [dropna_c4]
  show ((List.replicate (29 + 1) (testRow 3 0)).getD 0 default).price = 3
  rw [getD_zero_replicate]
  rfl

lemma c4_last : ((dropna c4rows).getLastD default).price = 3 := by
  rw [dropna_c4]
  show ((List.replicate (29 + 1) (testRow 3 0)).getLastD default).price = 3
  rw [getLastD_replicate]
  rfl

lemma c9_last : ((dropna c9rows).getLastD default).price = 1 := by
  rw [dropna_c9]
  show ((List.replicate (29 + 1) (testRow 1 5)).getLastD default).price = 1
  rw [getLastD_replicate]
  rfl

lemma c9_step0 : stepBar 0 (-1) (initSt 100) 0 (testRow 1 5) =
    { capital := 0, shares := 100, position := Pos.holding,
      trades := [mkBuy 0 1 100 5], buyPrice := 1 } := by
  have hfl : ⌊(initSt 100).capital / (testRow 1 5).price⌋ = (100 : ℤ) := by
    norm_num [initSt, testRow]
  rw [stepBar_eq_buy ⟨rfl, by decide⟩ (by rw [hfl]; norm_num)]
  simp only [hfl]
  simp only [initSt, testRow]
  norm_num

lemma c9_simRun : simRun 0 (-1) 100 (dropna c9rows) =
    { capital := 0, shares := 100, position := Pos.holding,
      trades := [mkBuy 0 1 100 5], buyPrice := 1 } := by
  rw [dropna_c9]
  show simRun 0 (-1) 100 (List.replicate (29 + 1) (testRow 1 5)) = _
  rw [List.replicate_succ]
  unfold simRun
  rw [List.enum_cons]
  simp only [List.foldl_cons]
  rw [c9_step0]
  refine foldl_fixed _ _ _ ?_
  intro p hp
  have hx : p.2 = testRow 1 5 := List.eq_of_mem_replicate (mem_enumFrom_snd hp)
  rw [hx]
  exact stepBar_eq_skip (by decide) (by decide)

lemma c10_step0 : stepBar 5 (-5) (initSt 1000) 0 (testRow 10 5) =
    { capital := 0, shares := 100, position := Pos.holding,
      trades := [c10buy], buyPrice := 10 } := by
  have hfl : ⌊(initSt 1000).capital / (testRow 10 5).price⌋ = (100 : ℤ) := by
    norm_num [initSt, testRow]
  rw [stepBar_eq_buy ⟨rfl, by decide⟩ (by rw [hfl]; norm_num)]
  simp only [hfl]
  simp only [initSt, testRow, c10buy]
  norm_num

lemma c10_step1 :
    stepBar 5 (-5)
      { capital := 0, shares := 100, position := Pos.holding,
        trades := [c10buy], buyPrice := 10 } 1 (testRow 13 (-5)) =
    { capital := 1300, shares := 0, position := Pos.cash,
      trades := [c10buy, c10sell], buyPrice := 0 } := by
  rw [stepBar_eq_sell (by decide) ⟨rfl, by decide⟩]
  simp only [testRow, c10sell]
  norm_num

lemma c10_simRun : simRun 5 (-5) 1000 (dropna c10rows) =
    { capital := 1300, shares := 0, position := Pos.cash,
      trades := [c10buy, c10sell], buyPrice := 0 } := by
  rw [dropna_c10]
  show simRun 5 (-5) 1000
    (testRow 10 5 :: testRow 13 (-5) :: List.replicate 28 (testRow 13 0)) = _
  unfold simRun
  rw [List.enum_cons, List.enumFrom_cons]
  simp only [List.foldl_cons]
  rw [c10_step0, c10_step1]
  refine foldl_fixed _ _ _ ?_
  intro p hp
  have hx : p.2 = testRow 13 0 := List.eq_of_mem_replicate (mem_enumFrom_snd hp)
  rw [hx]
  exact stepBar_eq_skip (by decide) (by decide)

/-- C4 counterexample: on 30 bars at constant price 3 with capital 10,
the evaluator's buy-and-hold return is -10% (the fractional leftover
cash from flooring `10 / 3` is discarded), while the claimed formula
`floor(capital/p0) * pN + (capital - floor(capital/p0) * p0)` retains
the leftover and yields a 0% return. -/
theorem C4_buy_hold_leftover_cex :
    (backtest_strategy c4rows 5 (-5) 10).map StratResult.buy_hold_return_pct =
      some (-10) ∧
    ((⌊(10 : ℚ) / 3⌋ : ℚ) * 3 + ((10 : ℚ) - (⌊(10 : ℚ) / 3⌋ : ℚ) * 3) - 10) / 10 * 100
      = 0 ∧
    ((-10 : ℚ) ≠ 0) := by
  refine ⟨?_, by norm_num, by norm_num⟩
  obtain ⟨res, hres⟩ := Option.isSome_iff_exists.mp
    (@backtest_strategy_isSome c4rows 5 (-5) 10 (by decide))
  obtain ⟨-, -, -, -, hf, -, -⟩ := backtest_fields hres
  rw [hres, Option.map_some']
  rw [hf, c4_first, c4_last]
  norm_num

/-- C4 amended: the buy-and-hold value is `floor(capital/p0) * pN` with
the fractional leftover cash discarded: the reported return equals
`(floor(capital/p0) * pN - capital) / capital * 100`, the discarded
leftover is non-negative, and the claimed leftover-retaining formula
exceeds the reported return by exactly the leftover's contribution. -/
theorem C4_buy_hold_return (df : List SRow) (buyT sellT : ℤ) (cap : ℚ)
    (res : StratResult)
    (hres : backtest_strategy df buyT sellT cap = some res)
    (hp0 : 0 < ((dropna df).getD 0 default).price) (hcap : 0 < cap) :
    res.buy_hold_return_pct =
      ((⌊cap / ((dropna df).getD 0 default).price⌋ : ℚ) *
        ((dropna df).getLastD default).price - cap) / cap * 100 ∧
    0 ≤ cap - (⌊cap / ((dropna df).getD 0 default).price⌋ : ℚ) *
        ((dropna df).getD 0 default).price ∧
    ((⌊cap / ((dropna df).getD 0 default).price⌋ : ℚ) *
          ((dropna df).getLastD default).price +
        (cap - (⌊cap / ((dropna df).getD 0 default).price⌋ : ℚ) *
          ((dropna df).getD 0 default).price) - cap) / cap * 100 -
      res.buy_hold_return_pct =
      (cap - (⌊cap / ((dropna df).getD 0 default).price⌋ : ℚ) *
        ((dropna df).getD 0 default).price) / cap * 100 := by
  obtain ⟨-, -, -, -, hf, -, -⟩ := backtest_fields hres
  refine ⟨hf, ?_, ?_⟩
  · have hfl : (⌊cap / ((dropna df).getD 0 default).price⌋ : ℚ) ≤
        cap / ((dropna df).getD 0 default).price := Int.floor_le _
    have hmul := mul_le_mul_of_nonneg_right hfl (le_of_lt hp0)
    rw [div_mul_cancel₀ _ (ne_of_gt hp0)] at hmul
    linarith
  · rw [hf]
    field_simp
    ring

/-- Witness for C4's amended theorem: with capital 10 and first price 3,
the discarded leftover `10 - 3 * 3 = 1` is non-negative. -/
theorem C4_buy_hold_return_w :
    0 ≤ (10 : ℚ) - (⌊(10 : ℚ) / ((dropna c4rows).getD 0 default).price⌋ : ℚ) *
      ((dropna c4rows).getD 0 default).price := by
  obtain ⟨res, hres⟩ := Option.isSome_iff_exists.mp
    (@backtest_strategy_isSome c4rows 5 (-5) 10 (by decide))
  exact (C4_buy_hold_return c4rows 5 (-5) 10 res hres
    (by rw [c4_first]; norm_num) (by norm_num)).2.1

/-- C9 counterexample: on a 30-bar run that is still HOLDING after the
last bar, the result reports `final_position = HOLDING` and records no
closing SELL trade (one trade in total, zero sells), refuting the claim
that a closing SELL is recorded and that the reported ending position
reflects a closure. -/
theorem C9_force_close_cex :
    (backtest_strategy c9rows 0 (-1) 100).map StratResult.final_position =
      some Pos.holding ∧
    (backtest_strategy c9rows 0 (-1) 100).map StratResult.num_sells = some 0 ∧
    (backtest_strategy c9rows 0 (-1) 100).map StratResult.num_trades = some 1 := by
  obtain ⟨res, hres⟩ := Option.isSome_iff_exists.mp
    (@backtest_strategy_isSome c9rows 0 (-1) 100 (by decide))
  obtain ⟨-, -, hpos, -, -, hsell, hnum⟩ := backtest_fields hres
  rw [c9_simRun] at hpos hsell hnum
  rw [hres]
  refine ⟨?_, ?_, ?_⟩
  · rw [Option.map_some', hpos]
  · rw [Option.map_some', hsell]
    decide
  · rw [Option.map_some', hnum]
    decide

/-- C9 amended: if the simulator is still HOLDING after the last bar,
the held shares are valued at the last bar's price in the final
valuation, but no closing SELL trade is appended (the log still ends
with the opening BUY) and the reported final position remains HOLDING. -/
theorem C9_final_valuation (df : List SRow) (buyT sellT : ℤ) (cap : ℚ)
    (res : StratResult)
    (hcap : 0 ≤ cap) (hp : ∀ r ∈ df, 0 ≤ r.price)
    (hres : backtest_strategy df buyT sellT cap = some res)
    (hhold : (simRun buyT sellT cap (dropna df)).position = Pos.holding) :
    res.final_value = (simRun buyT sellT cap (dropna df)).capital +
      ((simRun buyT sellT cap (dropna df)).shares : ℚ) *
        ((dropna df).getLastD default).price ∧
    res.final_position = Pos.holding ∧
    res.trades = (simRun buyT sellT cap (dropna df)).trades ∧
    ∃ t, res.trades.getLast? = some t ∧ isBuy t = true := by
  obtain ⟨-, htr, hpos, hfv, -, -, -⟩ := backtest_fields hres
  have hp' : ∀ r ∈ dropna df, 0 ≤ r.price :=
    fun r hr => hp r (List.mem_of_mem_filter hr)
  obtain ⟨-, -, hch⟩ := simRun_inv buyT sellT cap (dropna df) hcap hp'
  rw [hhold] at hch
  simp only [Pos.isCash] at hch
  obtain ⟨t, hlast, hbuy, -⟩ := tchain_last_buy hch
  refine ⟨hfv, by rw [hpos, hhold], htr, ⟨t, ?_, hbuy⟩⟩
  rw [htr]
  exact hlast

/-- Witness for C9's amended theorem: the held 100 shares are valued at
the final price 1 (final value 100) and the log is the single opening
BUY. -/
theorem C9_final_valuation_w :
    (backtest_strategy c9rows 0 (-1) 100).map StratResult.final_value = some 100 ∧
    (backtest_strategy c9rows 0 (-1) 100).map StratResult.trades =
      some [mkBuy 0 1 100 5] := by
  obtain ⟨res, hres⟩ := Option.isSome_iff_exists.mp
    (@backtest_strategy_isSome c9rows 0 (-1) 100 (by decide))
  have h := C9_final_valuation c9rows 0 (-1) 100 res (by norm_num) (by decide) hres
    (by rw [c9_simRun])
  have hfv := h.1
  rw [c9_simRun, c9_last] at hfv
  have htr := h.2.2.1
  rw [c9_simRun] at htr
  rw [hres]
  constructor
  · rw [Option.map_some', hfv]
    norm_num
  · rw [Option.map_some', htr]

/-- C10 counterexample: the SELL dictionary appended on `c10rows`
records only the percentage P&L (30); the absolute P&L of the closed
position, `(13 - 10) * 100 = 300`, appears in none of its entries, so a
SELL trade does not record the realized P&L in absolute terms. -/
theorem C10_absolute_pnl_cex :
    (backtest_strategy c10rows 5 (-5) 1000).map StratResult.trades =
      some [c10buy, c10sell] ∧
    (∀ kv ∈ c10sell, kv.2 ≠ TVal.q 300 ∧ kv.2 ≠ TVal.i 300) := by
  refine ⟨?_, by decide⟩
  obtain ⟨res, hres⟩ := Option.isSome_iff_exists.mp
    (@backtest_strategy_isSome c10rows 5 (-5) 1000 (by decide))
  obtain ⟨-, htr, -, -, -, -, -⟩ := backtest_fields hres
  rw [c10_simRun] at htr
  rw [hres, Option.map_some', htr]

/-- C10 amended: every SELL trade records the percentage P&L
`(sell_price - buy_price) / buy_price * 100` where `buy_price` is the
price of the BUY immediately preceding it in the log (a SELL is never
the first trade); no absolute P&L is recorded. -/
theorem C10_sell_pnl_pct (df : List SRow) (buyT sellT : ℤ) (cap : ℚ)
    (res : StratResult)
    (hcap : 0 ≤ cap) (hp : ∀ r ∈ df, 0 ≤ r.price)
    (hres : backtest_strategy df buyT sellT cap = some res) :
    (∀ t ∈ res.trades.head?, isBuy t = true) ∧
    List.Chain' (fun a b => isSell b = true → isBuy a = true ∧
      tPnl b = some ((tPrice b - tPrice a) / tPrice a * 100)) res.trades := by
  have hp' : ∀ r ∈ dropna df, 0 ≤ r.price :=
    fun r hr => hp r (List.mem_of_mem_filter hr)
  obtain ⟨-, -, hch⟩ := simRun_inv buyT sellT cap (dropna df) hcap hp'
  have htr := (backtest_fields hres).2.1
  rw [htr]
  exact ⟨tchain_head_buy hch, (tchain_chain hch).imp (fun a b hab => hab.2.2)⟩

/-- Witness for C10's amended theorem on the concrete two-trade run:
the SELL's recorded percentage P&L is computed from the preceding BUY. -/
theorem C10_sell_pnl_pct_w :
    (∀ t ∈ ([c10buy, c10sell] : List TradeD).head?, isBuy t = true) ∧
    List.Chain' (fun a b => isSell b = true → isBuy a = true ∧
      tPnl b = some ((tPrice b - tPrice a) / tPrice a * 100)) [c10buy, c10sell] := by
  obtain ⟨res, hres⟩ := Option.isSome_iff_exists.mp
    (@backtest_strategy_isSome c10rows 5 (-5) 1000 (by decide))
  have h := C10_sell_pnl_pct c10rows 5 (-5) 1000 res (by norm_num) (by decide) hres
  have htr := (backtest_fields hres).2.1
  rw [c10_simRun] at htr
  rwa [htr] at h

/- ## C6: the threshold grid search -/

lemma mem_intRange {lo hi x : ℤ} : x ∈ intRange lo hi ↔ lo ≤ x ∧ x < hi := by
  simp only [intRange, List.mem_map, List.mem_range]
  constructor
  · rintro ⟨k, hk, rfl⟩
    omega
  · rintro ⟨h1, h2⟩
    exact ⟨(x - lo).toNat, by omega, by omega⟩

lemma mem_gridPairs {b s : ℤ} :
    (b, s) ∈ gridPairs ↔ -2 ≤ b ∧ b ≤ 5 ∧ -5 ≤ s ∧ s < b := by
  unfold gridPairs
  rw [List.mem_flatMap]
  constructor
  · rintro ⟨a, ha, hmem⟩
    obtain ⟨t, ht, heq⟩ := List.mem_map.mp hmem
    obtain ⟨rfl, rfl⟩ := Prod.mk.injEq .. |>.mp heq
    obtain ⟨h1, h2⟩ := mem_intRange.mp ha
    obtain ⟨h3, h4⟩ := mem_intRange.mp ht
    exact ⟨h1, by omega, h3, h4⟩
  · rintro ⟨h1, h2, h3, h4⟩
    exact ⟨b, mem_intRange.mpr ⟨h1, by omega⟩,
      List.mem_map.mpr ⟨s, mem_intRange.mpr ⟨h3, h4⟩, rfl⟩⟩

lemma length_filterMap_eq {α β : Type} (f : α → Option β) (l : List α) :
    (l.filterMap f).length = (l.filter (fun x => (f x).isSome)).length := by
  induction l with
  | nil => rfl
  | cons x xs ih =>
      cases h : f x <;>
        simp [List.filterMap_cons, h, List.filter_cons, ih]

lemma sortByReturn_perm (l : List StratResult) : (sortByReturn l).Perm l :=
  List.mergeSort_perm l _

lemma sortByReturn_sorted (l : List StratResult) :
    List.Pairwise (fun a b => b.total_return_pct ≤ a.total_return_pct)
      (sortByReturn l) := by
  have h := @List.sorted_mergeSort StratResult
    (fun a b : StratResult => decide (b.total_return_pct ≤ a.total_return_pct))
    ?_ ?_ l
  · exact h.imp (fun hab => of_decide_eq_true hab)
  · intro a b c hab hbc
    have h1 := of_decide_eq_true hab
    have h2 := of_decide_eq_true hbc
    exact decide_eq_true (le_trans h2 h1)
  · intro a b
    rcases le_total b.total_return_pct a.total_return_pct with h | h
    · simp [h]
    · simp [h]

/-- C6: the grid search enumerates exactly the integer pairs with
`buy_threshold` in [-2, 5] and `sell_threshold` in [-5, buy_threshold)
(each pair once), produces exactly one strategy result per pair whose
backtest is not rejected, and returns those results ordered descending
by total return percentage (a permutation of the collected results). -/
theorem C6_grid_search (scored : List SRow) :
    (∀ b s : ℤ, (b, s) ∈ gridPairs ↔ -2 ≤ b ∧ b ≤ 5 ∧ -5 ≤ s ∧ s < b) ∧
    gridPairs.Nodup ∧
    (gridResults (dropna scored)).length =
      (gridPairs.filter (fun p =>
        (backtest_strategy (dropna scored) p.1 p.2 10000000).isSome)).length ∧
    (sortByReturn (gridResults (dropna scored))).Perm (gridResults (dropna scored)) ∧
    List.Pairwise (fun a b => b.total_return_pct ≤ a.total_return_pct)
      (sortByReturn (gridResults (dropna scored))) ∧
    run_backtest_grid scored =
      (if gridResults (dropna scored) = [] then none
       else some (sortByReturn (gridResults (dropna scored)))) :=
  ⟨fun _ _ => mem_gridPairs, by decide,
   length_filterMap_eq _ _,
   sortByReturn_perm _,
   sortByReturn_sorted _,
   rfl⟩

/-- C8: `get_stock_data`'s output columns do not include an
`Indicator_Diff` field, so the live monitor's
`latest_daily.get('Indicator_Diff', 0)` always returns the default 0,
whatever the values of the scored bar. -/
theorem C8_indicator_diff_missing :
    "Indicator_Diff" ∉ result_columns ∧
    ∀ vals : String → TVal,
      dictGet (rowRecord vals) "Indicator_Diff" (TVal.i 0) = TVal.i 0 := by
  constructor
  · decide
  · intro vals
    rfl
